import Mathlib

/-!
Shallow embedding of the trigger-matching and runtime-host core of the
graph-node repository: the Ethereum log/call/block filters of
`graph/src/components/ethereum/adapter.rs` and the `RuntimeHost` of
`runtime/wasm/src/host.rs`, together with the theorems checking the
natural-language specification against them.

Machine integers are modelled as `Nat` (all values in the relevant code
paths are used as opaque identifiers or compared, never overflowed);
byte buffers are `List Nat` with each element a byte value; hash maps
and hash sets are modelled as functions and lists with set semantics.
The keccak-256 hash used to derive topic hashes and 4-byte method ids
lives outside the source under verification, so every definition that
needs it takes an explicit `HashModel` argument: all theorems below hold
for an arbitrary hash function.
-/

set_option autoImplicit false

namespace GraphNode

/-- An Ethereum address (`H160` in the source), as an opaque numeral. -/
abbrev Address := Nat

/-- A 32-byte word (`H256` in the source), as an opaque numeral. -/
abbrev H256 := Nat

/-- A byte buffer (`Bytes` / `Vec<u8>` in the source). -/
abbrev Bytes := List Nat

/-- External hash functions used by the source but defined outside it:
`util::ethereum::string_to_h256` (the 32-byte keccak-256 of a canonical
signature string) and `tiny_keccak::keccak256` (the raw 32-byte digest).
Modelled as parameters so every theorem holds for an arbitrary hash. -/
structure HashModel where
  h256 : String → H256
  keccakBytes : String → Bytes

/-- `[sig[0], sig[1], sig[2], sig[3]]`: the 4-byte method id taken from the
front of the keccak-256 digest of a canonical function signature. -/
def methodId (K : HashModel) (sig : String) : Bytes :=
  (K.keccakBytes sig).take 4

/-- A web3 `Log`: emitting contract address, topic list (first entry is the
event signature hash) and the data payload. -/
structure Log where
  address : Address
  topics : List H256
  data : Bytes
deriving DecidableEq

/-- An `EthereumCall`: target contract (the source field `to`, renamed
`to_` because `to` is reserved here), input buffer (first 4 bytes are the
method id) and raw output buffer. -/
structure EthereumCall where
  to_ : Address
  input : Bytes
  output : Bytes
deriving DecidableEq

/-- `parse::<u64>().ok()` applied to a decimal string: succeeds exactly on a
nonempty all-digit string whose value fits in a `u64`. -/
def parseU64 (s : String) : Option Nat :=
  if s.length ≠ 0 ∧ s.toList.all Char.isDigit then
    let v := s.toList.foldl (fun acc c => acc * 10 + (c.toNat - 48)) 0
    if v < 2 ^ 64 then some v else none
  else none

/-- `start_block.as_ref().and_then(|num| num.parse::<u64>().ok())`. -/
def parseStartBlock (sb : Option String) : Option Nat :=
  sb.bind parseU64

/-- An event handler declaration (`MappingEventHandler`): the canonical
event signature string and the guest handler name. -/
structure MappingEventHandler where
  event : String
  handler : String
deriving DecidableEq

/-- Modelled from the spec: `EthereumEventHandler::topic0`, defined outside
src/, is the keccak-256 of the declared event signature string. -/
def MappingEventHandler.topic0 (K : HashModel) (h : MappingEventHandler) : H256 :=
  K.h256 h.event

/-- A call handler declaration (`MappingTransactionHandler`): the canonical
function signature string and the guest handler name. -/
structure MappingTransactionHandler where
  function : String
  handler : String
deriving DecidableEq

/-- A block handler declaration (`MappingBlockHandler`). -/
structure MappingBlockHandler where
  handler : String
deriving DecidableEq

/-- The `source` section of a data source: optional contract address, the
name of its ABI, and the optional start block as a decimal string. -/
structure Source where
  address : Option Address
  abi : String
  start_block : Option String

/-- The `mapping` section of a data source, restricted to the handler lists
the filters read. -/
structure Mapping where
  event_handlers : List MappingEventHandler

/-- A data-source declaration, restricted to the fields the log filter
reads. -/
structure DataSource where
  source : Source
  mapping : Mapping

/-- A single tuple of an `EthereumLogFilter`:
`(start_block, contract_address, event_signature)`. -/
abbrev LogFilterPair := Option Nat × Option Address × H256

/-- `EthereumLogFilter`: the hash set
`contract_address_and_event_sig_pairs` modelled as a list with set
semantics. -/
structure EthereumLogFilter where
  contract_address_and_event_sig_pairs : List LogFilterPair

/-- The comparison `start_block < block_num` of the source, under the
derived `Option` ordering: an unset start block is below every block
number, a set one compares strictly. -/
def startBlockLt (sb : Option Nat) (blockNum : Nat) : Bool :=
  match sb with
  | none => true
  | some v => decide (v < blockNum)

/-- `EthereumLogFilter::matches`: `false` on an empty topic list, otherwise
some stored pair must agree on the signature, agree on the address when one
is stored, and have its start block strictly below the block number. -/
def EthereumLogFilter.matches (F : EthereumLogFilter) (log : Log)
    (blockNum : Nat) : Bool :=
  match log.topics with
  | [] => false
  | sig :: _ =>
    F.contract_address_and_event_sig_pairs.any fun pair =>
      match pair with
      | (start_block, some addr, s) =>
        addr == log.address && s == sig && startBlockLt start_block blockNum
      | (start_block, none, s) =>
        s == sig && startBlockLt start_block blockNum

/-- `EthereumLogFilter::from_data_sources`: flatten every
(data source, event handler) pair into a
`(parsed start block, contract address, topic0)` tuple and collect. -/
def EthereumLogFilter.from_data_sources (K : HashModel)
    (dss : List DataSource) : EthereumLogFilter :=
  { contract_address_and_event_sig_pairs :=
      dss.flatMap fun data_source =>
        data_source.mapping.event_handlers.map fun event_handler =>
          (parseStartBlock data_source.source.start_block,
           data_source.source.address,
           event_handler.topic0 K) }

/-- `EthereumLogFilter::extend`: set union of the underlying sets. -/
def EthereumLogFilter.extend (F other : EthereumLogFilter) :
    EthereumLogFilter :=
  { contract_address_and_event_sig_pairs :=
      F.contract_address_and_event_sig_pairs ++
        other.contract_address_and_event_sig_pairs }

/-- `EthereumLogFilter::is_empty`. -/
def EthereumLogFilter.is_empty (F : EthereumLogFilter) : Bool :=
  F.contract_address_and_event_sig_pairs.isEmpty

/-- `EthereumLogFilter::only_activated_filters`: keep the tuples whose
start block is unset or at least the given block. -/
def EthereumLogFilter.only_activated_filters (F : EthereumLogFilter)
    (start_block : Nat) : EthereumLogFilter :=
  { contract_address_and_event_sig_pairs :=
      F.contract_address_and_event_sig_pairs.filter fun t =>
        match t.1 with
        | some block_num => decide (block_num ≥ start_block)
        | none => true }

/-- A 4-byte method id as stored in an `EthereumCallFilter`
(`[u8; 4]` in the source). -/
abbrev MethodId := Bytes

/-- `EthereumCallFilter`: the hash map
`contract_addresses_function_signatures` from contract address to
`(start_block, set of 4-byte method ids)`, modelled as a function into
`Option`. -/
structure EthereumCallFilter where
  contract_addresses_function_signatures :
    Address → Option (Option Nat × List MethodId)

/-- `&call.input.0[..4]`: the leading 4-byte slice of the input buffer.
`none` models the out-of-bounds panic the source hits when the buffer is
shorter than 4 bytes. -/
def slice4 (input : Bytes) : Option Bytes :=
  if 4 ≤ input.length then some (input.take 4) else none

/-- `EthereumCallFilter::matches`: `false` without an entry for `call.to`;
`true` when the entry stores no method ids; otherwise membership of the
leading 4 input bytes. The result is `none` exactly when the source
panics slicing `call.input.0[..4]` out of bounds. -/
def EthereumCallFilter.matches (F : EthereumCallFilter)
    (call : EthereumCall) : Option Bool :=
  match F.contract_addresses_function_signatures call.to_ with
  | none => some false
  | some entry =>
    if entry.2.isEmpty then
      some true
    else
      match slice4 call.input with
      | none => none
      | some target => some (entry.2.contains target)

/-- `EthereumCallFilter::extend`:
`self.map.extend(other.map.into_iter())`, i.e. every entry of `other` is
inserted, replacing a colliding entry of `self` wholesale. -/
def EthereumCallFilter.extend (F other : EthereumCallFilter) :
    EthereumCallFilter :=
  { contract_addresses_function_signatures := fun a =>
      match other.contract_addresses_function_signatures a with
      | some v => some v
      | none => F.contract_addresses_function_signatures a }

/-- A solidity parameter type. The embedding carries the static 32-byte-word
core of the ABI type language, which is all the claims exercise. -/
inductive ParamType where
  | uint256
  | address
  | bytes32
deriving DecidableEq

/-- An ABI token (a decoded value). -/
inductive Token where
  | uint (n : Nat)
  | addr (a : Nat)
  | fixedBytes (b : Nat)
deriving DecidableEq

/-- A named function parameter (`ethabi::Param`). -/
structure Param where
  name : String
  kind : ParamType
deriving DecidableEq

/-- A named event parameter (`ethabi::EventParam`), with its indexed flag. -/
structure EventParam where
  name : String
  kind : ParamType
  indexed : Bool
deriving DecidableEq

/-- A function declaration of a contract ABI, keyed by its canonical
signature string. -/
structure FunctionAbi where
  signature : String
  inputs : List Param
  outputs : List Param
deriving DecidableEq

/-- An event declaration of a contract ABI, keyed by its canonical
signature string. -/
structure EventAbi where
  signature : String
  inputs : List EventParam
deriving DecidableEq

/-- A parsed contract schema (`ethabi::Contract`). -/
structure Contract where
  functions : List FunctionAbi
  events : List EventAbi
deriving DecidableEq

/-- A named ABI entry of the mapping manifest (`MappingABI`). -/
structure MappingABI where
  name : String
  contract : Contract
deriving DecidableEq

/-- A decoded named value (`ethabi::LogParam`). -/
structure LogParam where
  name : String
  value : Token
deriving DecidableEq

/-- Big-endian bytes of a numeral, left-padded to width `w`. -/
def natToBytesBE (w n : Nat) : Bytes :=
  (List.range w).map fun i => n / 256 ^ (w - 1 - i) % 256

/-- A byte buffer read as a big-endian numeral. -/
def bytesToNat (bs : Bytes) : Nat :=
  bs.foldl (fun acc b => acc * 256 + b % 256) 0

/-- Modelled from the spec: interpretation of one 32-byte word as a token of
the given static type, as the external ethabi decoder does (an address is
the low 20 bytes of its word). -/
def wordToToken (t : ParamType) (w : Nat) : Token :=
  match t with
  | .uint256 => .uint w
  | .address => .addr (w % 2 ^ 160)
  | .bytes32 => .fixedBytes w

/-- Modelled from the spec: the external ethabi `decode` over the static
type core, reading one 32-byte word per type in sequence and failing when
the buffer runs out. -/
def decodeTokens : List ParamType → Bytes → Except Unit (List Token)
  | [], _ => .ok []
  | t :: ts, data =>
    if 32 ≤ data.length then
      (decodeTokens ts (data.drop 32)).map
        (wordToToken t (bytesToNat (data.take 32)) :: ·)
    else .error ()

/-- Modelled from the spec: the external ethabi `encode` over the static
type core, one 32-byte big-endian word per token. -/
def encodeToken : Token → Bytes
  | .uint n => natToBytesBE 32 n
  | .addr a => natToBytesBE 32 a
  | .fixedBytes b => natToBytesBE 32 b

/-- ABI encoding of an argument tuple over the static type core. -/
def encodeTokens (ts : List Token) : Bytes :=
  ts.flatMap encodeToken

/-- `ethabi::Function::decode_output`: decodes a buffer against the
declared OUTPUT types of the function (this is what the source calls on
the call input buffer as well). -/
def FunctionAbi.decode_output (f : FunctionAbi) (data : Bytes) :
    Except Unit (List Token) :=
  decodeTokens (f.outputs.map Param.kind) data

/-- Modelled from the spec:
`util::ethereum::contract_function_with_signature` locates a function in
the contract ABI by its canonical signature string. -/
def contract_function_with_signature (c : Contract) (sig : String) :
    Option FunctionAbi :=
  c.functions.find? fun f => f.signature == sig

/-- Modelled from the spec:
`util::ethereum::contract_event_with_signature` locates an event in the
contract ABI by its canonical signature string. -/
def contract_event_with_signature (c : Contract) (sig : String) :
    Option EventAbi :=
  c.events.find? fun e => e.signature == sig

/-- Recursion for `parse_log`: indexed parameters are drawn (one word
each) from the remaining topics, the others from consecutive 32-byte words
of the data buffer. -/
def parseLogTokens : List EventParam → List H256 → Bytes →
    Except Unit (List LogParam)
  | [], _, _ => .ok []
  | p :: ps, topics, data =>
    if p.indexed then
      match topics with
      | [] => .error ()
      | t :: ts =>
        (parseLogTokens ps ts data).map
          ({ name := p.name, value := wordToToken p.kind t } :: ·)
    else
      if 32 ≤ data.length then
        (parseLogTokens ps topics (data.drop 32)).map
          ({ name := p.name,
             value := wordToToken p.kind (bytesToNat (data.take 32)) } :: ·)
      else .error ()

/-- Modelled from the spec: the external `ethabi::Event::parse_log` over
the static type core. The leading topic is the event signature hash; the
named parameters come from the remaining topics and the data buffer. -/
def EventAbi.parse_log (e : EventAbi) (topics : List H256) (data : Bytes) :
    Except Unit (List LogParam) :=
  match topics with
  | [] => .error ()
  | _ :: rest => parseLogTokens e.inputs rest data

/-- An entity operation, opaque to this development. -/
abbrev EntityOperation := Nat

/-- The error outcomes of the pre-dispatch phase of the processing
operations of `RuntimeHost`, one constructor per early-return site of the
source. -/
inductive HostError where
  | noTopics
  | noEventHandler
  | eventNotInAbi
  | parseLogFailed
  | inputTooShort
  | noCallHandler
  | functionNotInAbi
  | inputDecodeFailed
  | inputArityMismatch
  | outputDecodeFailed
  | outputArityMismatch
  | noBlockHandler
deriving DecidableEq

/-- The payload of a `MappingTrigger`, the tagged union sent to the
mapping worker. -/
inductive MappingTrigger where
  | log (log : Log) (params : List LogParam) (handler : MappingEventHandler)
  | call (call : EthereumCall) (inputs : List LogParam)
      (outputs : List LogParam) (handler : MappingTransactionHandler)
  | block (handler : MappingBlockHandler)
deriving DecidableEq

/-- A `MappingRequest` as observed on the worker queue: the trigger and the
accumulated prior entity operations (logger, block and reply channel are
runtime plumbing with no bearing on the claims). -/
structure MappingRequest where
  trigger : MappingTrigger
  entity_operations : List EntityOperation
deriving DecidableEq

/-- The per-data-source `RuntimeHost` state, with the fields its predicate
and processing operations read. -/
structure RuntimeHost where
  data_source_name : String
  data_source_contract : Source
  data_source_contract_abi : MappingABI
  data_source_event_handlers : List MappingEventHandler
  data_source_call_handlers : List MappingTransactionHandler
  data_source_block_handler : Option MappingBlockHandler

namespace RuntimeHost

/-- `matches_call_address`: the optional data-source address must equal the
call target. -/
def matches_call_address (h : RuntimeHost) (call : EthereumCall) : Bool :=
  h.data_source_contract.address == some call.to_

/-- `matches_call_function`: slices `call.input.0[..4]` with no length
guard (`none` models that panic) and compares it with the 4-byte keccak
prefix of each declared call handler. -/
def matches_call_function (K : HashModel) (h : RuntimeHost)
    (call : EthereumCall) : Option Bool :=
  match slice4 call.input with
  | none => none
  | some target_method_id =>
    some (h.data_source_call_handlers.any fun handler =>
      target_method_id == methodId K handler.function)

/-- `matches_log_address`. -/
def matches_log_address (h : RuntimeHost) (log : Log) : Bool :=
  h.data_source_contract.address == some log.address

/-- `matches_log_signature`: false on an empty topic list, else the first
topic must be the topic hash of some declared event handler. -/
def matches_log_signature (K : HashModel) (h : RuntimeHost) (log : Log) :
    Bool :=
  match log.topics with
  | [] => false
  | signature :: _ =>
    h.data_source_event_handlers.any fun event_handler =>
      signature == K.h256 event_handler.event

/-- `matches_log`: address and signature both match. -/
def matches_log (K : HashModel) (h : RuntimeHost) (log : Log) : Bool :=
  h.matches_log_address log && h.matches_log_signature K log

/-- `matches_call`: address and function both match; the function check is
reached only when the address matched (Rust `&&` short-circuits). -/
def matches_call (K : HashModel) (h : RuntimeHost) (call : EthereumCall) :
    Option Bool :=
  if h.matches_call_address call then h.matches_call_function K call
  else some false

/-- `matches_block`: a block handler is declared and the call targets the
data-source address. -/
def matches_block (h : RuntimeHost) (call : EthereumCall) : Bool :=
  h.data_source_block_handler.isSome && h.matches_call_address call

/-- `handler_for_log`: error on an empty topic list, else the first event
handler whose topic hash is the leading topic. -/
def handler_for_log (K : HashModel) (h : RuntimeHost) (log : Log) :
    Except HostError MappingEventHandler :=
  match log.topics with
  | [] => .error .noTopics
  | signature :: _ =>
    match h.data_source_event_handlers.find? fun handler =>
        signature == K.h256 handler.event with
    | some handler => .ok handler
    | none => .error .noEventHandler

/-- `handler_for_call`: error when the input holds less than 4 bytes, else
the first call handler whose 4-byte keccak prefix is the leading input
slice. -/
def handler_for_call (K : HashModel) (h : RuntimeHost)
    (call : EthereumCall) : Except HostError MappingTransactionHandler :=
  if call.input.length < 4 then .error .inputTooShort
  else
    match h.data_source_call_handlers.find? fun handler =>
        call.input.take 4 == methodId K handler.function with
    | some handler => .ok handler
    | none => .error .noCallHandler

/-- `handler_for_block`: the declared block handler, or an error. -/
def handler_for_block (h : RuntimeHost) :
    Except HostError MappingBlockHandler :=
  match h.data_source_block_handler with
  | some handler => .ok handler
  | none => .error .noBlockHandler

/-- `tokens.into_iter().enumerate().map(..)`: zip decoded tokens with the
names of the declared parameters, in order. -/
def zipNamed (ps : List Param) (tokens : List Token) : List LogParam :=
  List.zipWith (fun p t => { name := p.name, value := t }) ps tokens

/-- `process_log`, pre-dispatch phase: resolve the event handler, resolve
the event in the contract ABI, parse the log, then enqueue a `Log`
trigger. The second component is the list of requests sent to the worker
queue. -/
def process_log (K : HashModel) (h : RuntimeHost) (log : Log)
    (entity_operations : List EntityOperation) :
    Except HostError MappingTrigger × List MappingRequest :=
  match h.handler_for_log K log with
  | .error e => (.error e, [])
  | .ok event_handler =>
    match contract_event_with_signature
        h.data_source_contract_abi.contract event_handler.event with
    | none => (.error .eventNotInAbi, [])
    | some event_abi =>
      match event_abi.parse_log log.topics log.data with
      | .error _ => (.error .parseLogFailed, [])
      | .ok params =>
        let trigger := MappingTrigger.log log params event_handler
        (.ok trigger, [{ trigger := trigger, entity_operations }])

/-- `process_call`, pre-dispatch phase: resolve the call handler, resolve
the function in the contract ABI, decode `call.input[4..]` via
`decode_output` (the source decodes the input buffer against the OUTPUT
types) with the arity check against the declared inputs, decode
`call.output` with the arity check against the declared outputs, then
enqueue a `Call` trigger. -/
def process_call (K : HashModel) (h : RuntimeHost) (call : EthereumCall)
    (entity_operations : List EntityOperation) :
    Except HostError MappingTrigger × List MappingRequest :=
  match h.handler_for_call K call with
  | .error e => (.error e, [])
  | .ok call_handler =>
    match contract_function_with_signature
        h.data_source_contract_abi.contract call_handler.function with
    | none => (.error .functionNotInAbi, [])
    | some function_abi =>
      match function_abi.decode_output (call.input.drop 4) with
      | .error _ => (.error .inputDecodeFailed, [])
      | .ok tokens =>
        if tokens.length ≠ function_abi.inputs.length then
          (.error .inputArityMismatch, [])
        else
          let inputs := zipNamed function_abi.inputs tokens
          match function_abi.decode_output call.output with
          | .error _ => (.error .outputDecodeFailed, [])
          | .ok tokens =>
            if tokens.length ≠ function_abi.outputs.length then
              (.error .outputArityMismatch, [])
            else
              let outputs := zipNamed function_abi.outputs tokens
              let trigger :=
                MappingTrigger.call call inputs outputs call_handler
              (.ok trigger, [{ trigger := trigger, entity_operations }])

/-- `process_block`, pre-dispatch phase: resolve the block handler, then
enqueue a `Block` trigger. -/
def process_block (h : RuntimeHost)
    (entity_operations : List EntityOperation) :
    Except HostError MappingTrigger × List MappingRequest :=
  match h.handler_for_block with
  | .error e => (.error e, [])
  | .ok block_handler =>
    let trigger := MappingTrigger.block block_handler
    (.ok trigger, [{ trigger := trigger, entity_operations }])

end RuntimeHost

/-! ## Concrete instances used by witnesses and counterexamples -/

/-- A concrete hash model (constant digests) for evaluating the
definitions on closed inputs; no theorem depends on its values. -/
def K0 : HashModel := ⟨fun _ => 7, fun _ => [1, 2, 3, 4]⟩

/-- A call filter holding method id `[1,2,3,4]` for address 1, start
block 10. -/
def callFilterF : EthereumCallFilter :=
  ⟨fun a => if a = 1 then some (some 10, [[1, 2, 3, 4]]) else none⟩

/-- A call filter holding method id `[5,6,7,8]` for address 1, start
block 20. -/
def callFilterG : EthereumCallFilter :=
  ⟨fun a => if a = 1 then some (some 20, [[5, 6, 7, 8]]) else none⟩

/-- The `set(uint256)` function declaration: one `uint256` input named
`_value`, no outputs. -/
def setFunctionAbi : FunctionAbi :=
  { signature := "set(uint256)",
    inputs := [{ name := "_value", kind := .uint256 }],
    outputs := [] }

/-- A host with a call handler for `set(uint256)` whose contract ABI
declares that function. -/
def hostSet : RuntimeHost :=
  { data_source_name := "ds",
    data_source_contract := ⟨some 5, "Main", none⟩,
    data_source_contract_abi := ⟨"Main", ⟨[setFunctionAbi], []⟩⟩,
    data_source_event_handlers := [],
    data_source_call_handlers := [⟨"set(uint256)", "handleSet"⟩],
    data_source_block_handler := none }

/-- The call produced by ABI-encoding the argument 42 for `set(uint256)`
and prefixing the 4-byte method id. -/
def callSet : EthereumCall :=
  ⟨5, methodId K0 "set(uint256)" ++ encodeTokens [Token.uint 42], []⟩

/-- A host declaring a `Transfer` event handler whose event is absent
from its contract ABI (construction performs no such validation). -/
def hostNoAbiEvent : RuntimeHost :=
  { data_source_name := "ds",
    data_source_contract := ⟨some 5, "Main", none⟩,
    data_source_contract_abi := ⟨"Main", ⟨[], []⟩⟩,
    data_source_event_handlers :=
      [⟨"Transfer(address,address,uint256)", "handleTransfer"⟩],
    data_source_call_handlers := [],
    data_source_block_handler := none }

/-- A log from address 5 whose leading topic is the `K0` hash of the
declared `Transfer` event. -/
def logTransfer : Log := ⟨5, [7], []⟩

/-! ## Helper lemmas -/

theorem startBlockLt_eq_true_iff (sb : Option Nat) (n : Nat) :
    startBlockLt sb n = true ↔ ∀ v, sb = some v → v < n := by
  cases sb <;> simp [startBlockLt]

/-! ## Claims -/

/-- Claim C1: for every log filter `F`, log `L` and block number `n`,
`F.matches L n` is false when `L.topics` is empty, and otherwise is true
iff some stored tuple `(sb, a, s)` has `s` equal to the leading topic,
`a` unset or equal to the log address, and `sb`, when set, strictly below
`n`. -/
theorem log_filter_matches_characterization (F : EthereumLogFilter)
    (L : Log) (n : Nat) :
    (L.topics = [] → F.matches L n = false) ∧
    (∀ sig rest, L.topics = sig :: rest →
      (F.matches L n = true ↔
        ∃ t ∈ F.contract_address_and_event_sig_pairs,
          t.2.2 = sig ∧ (t.2.1 = none ∨ t.2.1 = some L.address) ∧
          ∀ sb, t.1 = some sb → sb < n)) := by
  constructor
  · intro h
    simp [EthereumLogFilter.matches, h]
  · intro sig rest h
    simp only [EthereumLogFilter.matches, h, List.any_eq_true]
    constructor
    · rintro ⟨⟨sb, oa, s⟩, hmem, hp⟩
      refine ⟨(sb, oa, s), hmem, ?_⟩
      cases oa with
      | none =>
        simp only [Bool.and_eq_true, beq_iff_eq] at hp
        exact ⟨hp.1, Or.inl rfl,
          (startBlockLt_eq_true_iff sb n).mp hp.2⟩
      | some addr =>
        simp only [Bool.and_eq_true, beq_iff_eq] at hp
        obtain ⟨⟨ha, hs⟩, hl⟩ := hp
        exact ⟨hs, Or.inr (by rw [ha]),
          (startBlockLt_eq_true_iff sb n).mp hl⟩
    · rintro ⟨⟨sb, oa, s⟩, hmem, hsig, haddr, hsb⟩
      refine ⟨(sb, oa, s), hmem, ?_⟩
      cases oa with
      | none =>
        simp only [Bool.and_eq_true, beq_iff_eq]
        exact ⟨hsig, (startBlockLt_eq_true_iff sb n).mpr hsb⟩
      | some addr =>
        simp only [Bool.and_eq_true, beq_iff_eq]
        rcases haddr with h1 | h1
        · cases h1
        · injection h1 with h1
          exact ⟨⟨h1, hsig⟩, (startBlockLt_eq_true_iff sb n).mpr hsb⟩

/-- Witness for C1: a concrete filter and log on which the
characterization yields a positive match. -/
theorem log_filter_matches_characterization_witness :
    EthereumLogFilter.matches ⟨[(some 3, some 9, 77)]⟩ ⟨9, [77], []⟩ 5 =
      true := by
  have h := log_filter_matches_characterization
    ⟨[(some 3, some 9, 77)]⟩ ⟨9, [77], []⟩ 5
  refine (h.2 77 [] rfl).mpr ⟨(some 3, some 9, 77), ?_, rfl, Or.inr rfl, ?_⟩
  · simp
  · intro sb hsb
    cases hsb
    decide

/-- Claim C2: `EthereumCallFilter.matches` is false without an entry for
the call target, true on an empty stored method-id set, and otherwise
holds iff the leading 4 input bytes are in the set; no start-block
condition is evaluated (the last conjunct: rewriting every stored start
block leaves the result unchanged). -/
theorem call_filter_matches_characterization (F : EthereumCallFilter)
    (c : EthereumCall) :
    (F.contract_addresses_function_signatures c.to_ = none →
      F.matches c = some false) ∧
    (∀ sb, F.contract_addresses_function_signatures c.to_ = some (sb, []) →
      F.matches c = some true) ∧
    (∀ sb ids,
      F.contract_addresses_function_signatures c.to_ = some (sb, ids) →
      ids ≠ [] → 4 ≤ c.input.length →
      (F.matches c = some true ↔ c.input.take 4 ∈ ids)) ∧
    (∀ s : Address → Option Nat,
      EthereumCallFilter.matches
        ⟨fun a => (F.contract_addresses_function_signatures a).map
          fun e => (s a, e.2)⟩ c = F.matches c) := by
  refine ⟨?_, ?_, ?_, ?_⟩
  · intro h
    simp [EthereumCallFilter.matches, h]
  · intro sb h
    simp [EthereumCallFilter.matches, h]
  · intro sb ids h hne hlen
    simp [EthereumCallFilter.matches, h, hne, slice4, hlen,
      List.isEmpty_iff]
  · intro s
    simp only [EthereumCallFilter.matches]
    cases F.contract_addresses_function_signatures c.to_ <;> simp

/-- Witness for C2: a concrete filter with a nonempty method-id set on
which the membership branch decides the match. -/
theorem call_filter_matches_characterization_witness :
    EthereumCallFilter.matches
      ⟨fun a => if a = 1 then some (some 7, [[1, 2, 3, 4]]) else none⟩
      ⟨1, [1, 2, 3, 4, 9], []⟩ = some true := by
  have h := call_filter_matches_characterization
    ⟨fun a => if a = 1 then some (some 7, [[1, 2, 3, 4]]) else none⟩
    ⟨1, [1, 2, 3, 4, 9], []⟩
  exact (h.2.2.1 (some 7) [[1, 2, 3, 4]] (by decide) (by decide)
    (by decide)).mpr (by decide)

/-- Claim C9: `only_activated_filters b` retains exactly the tuples whose
start block is unset or at least `b`. -/
theorem only_activated_filters_characterization (F : EthereumLogFilter)
    (b : Nat) (t : LogFilterPair) :
    t ∈ (F.only_activated_filters b).contract_address_and_event_sig_pairs ↔
      t ∈ F.contract_address_and_event_sig_pairs ∧
        (t.1 = none ∨ ∃ sb, t.1 = some sb ∧ b ≤ sb) := by
  simp only [EthereumLogFilter.only_activated_filters, List.mem_filter]
  refine and_congr_right fun _ => ?_
  rcases t with ⟨sb, rest⟩
  cases sb <;> simp [ge_iff_le]

/-- Counterexample for C5: after `F.extend(G)` the entry for address 1
holds only the method ids of `G`; the id `[1,2,3,4]` stored by `F` is
gone, so the resulting set is not the union the claim asserts. -/
theorem call_filter_extend_union_counterexample :
    (callFilterF.extend callFilterG).contract_addresses_function_signatures
        1 = some (some 20, [[5, 6, 7, 8]]) ∧
    [1, 2, 3, 4] ∈
      ((callFilterF.contract_addresses_function_signatures 1).getD
        (none, [])).2 ∧
    ¬ [1, 2, 3, 4] ∈
      (((callFilterF.extend callFilterG).contract_addresses_function_signatures
        1).getD (none, [])).2 := by
  refine ⟨by decide, by decide, by decide⟩

/-- Claim C5 (amended): after `F.extend(G)`, an address with an entry in
`G` maps to exactly the entry of `G` — its method-id set replaces (rather
than unions with) the one of `F`, and its start block is retained. -/
theorem call_filter_extend_overwrites (F G : EthereumCallFilter)
    (a : Address) (e : Option Nat × List MethodId)
    (h : G.contract_addresses_function_signatures a = some e) :
    (F.extend G).contract_addresses_function_signatures a = some e := by
  simp [EthereumCallFilter.extend, h]

/-- Witness for C5: the amended extension law at the concrete filters of
the counterexample. -/
theorem call_filter_extend_overwrites_witness :
    (callFilterF.extend callFilterG).contract_addresses_function_signatures
      1 = some (some 20, [[5, 6, 7, 8]]) :=
  call_filter_extend_overwrites callFilterF callFilterG 1 _ (by decide)

/-- Claim C7: building the log filter from a concatenation of data-source
lists yields, as a set of tuples, the filter built from the first list
extended with the filter built from the second. -/
theorem log_filter_from_data_sources_append (K : HashModel)
    (A B : List DataSource) :
    (EthereumLogFilter.from_data_sources K
        (A ++ B)).contract_address_and_event_sig_pairs.toFinset =
      ((EthereumLogFilter.from_data_sources K A).extend
        (EthereumLogFilter.from_data_sources
          K B)).contract_address_and_event_sig_pairs.toFinset := by
  simp [EthereumLogFilter.from_data_sources, EthereumLogFilter.extend]

/-- Claim C8: a call whose input holds less than 4 bytes is rejected by
`handler_for_call`, and `process_call` — which resolves the handler
first — returns the same error and enqueues nothing. -/
theorem short_input_rejected (K : HashModel) (h : RuntimeHost)
    (call : EthereumCall) (ops : List EntityOperation)
    (hlen : call.input.length < 4) :
    h.handler_for_call K call = .error .inputTooShort ∧
    h.process_call K call ops = (.error .inputTooShort, []) := by
  have h1 : h.handler_for_call K call = .error .inputTooShort := by
    simp [RuntimeHost.handler_for_call, hlen]
  exact ⟨h1, by simp [RuntimeHost.process_call, h1]⟩

/-- Witness for C8: the empty input buffer is rejected. -/
theorem short_input_rejected_witness :
    hostSet.process_call K0 ⟨5, [], []⟩ [] =
      (.error .inputTooShort, []) :=
  (short_input_rejected K0 hostSet ⟨5, [], []⟩ [] (by decide)).2

/-- Claim C10: the 4-byte slice taken by `matches_call_function` and by
`EthereumCallFilter.matches` is in bounds — and both predicates total —
whenever the input holds at least 4 bytes; with a shorter input the
out-of-bounds slice (modelled by `none`) is reached always by
`matches_call_function`, and by `matches` whenever the entry for the call
target stores a nonempty method-id set. -/
theorem method_id_slice_bounds (K : HashModel) (h : RuntimeHost)
    (F : EthereumCallFilter) (c : EthereumCall) :
    (4 ≤ c.input.length →
      (h.matches_call_function K c).isSome = true) ∧
    (4 ≤ c.input.length → (F.matches c).isSome = true) ∧
    (c.input.length < 4 → h.matches_call_function K c = none) ∧
    (∀ sb ids,
      F.contract_addresses_function_signatures c.to_ = some (sb, ids) →
      ids ≠ [] → c.input.length < 4 → F.matches c = none) := by
  refine ⟨?_, ?_, ?_, ?_⟩
  · intro hlen
    simp [RuntimeHost.matches_call_function, slice4, hlen]
  · intro hlen
    simp only [EthereumCallFilter.matches]
    cases hmap : F.contract_addresses_function_signatures c.to_ with
    | none => simp
    | some e =>
      simp only [slice4, hlen, if_pos]
      split <;> simp
  · intro hlen
    simp [RuntimeHost.matches_call_function, slice4, Nat.not_le.mpr hlen]
  · intro sb ids hmap hne hlen
    simp [EthereumCallFilter.matches, hmap, List.isEmpty_iff, hne,
      slice4, Nat.not_le.mpr hlen]

/-- Witness for C10: a 0-byte input reaches the out-of-bounds slice of
`matches_call_function`. -/
theorem method_id_slice_bounds_witness :
    RuntimeHost.matches_call_function K0 hostSet ⟨5, [], []⟩ = none :=
  (method_id_slice_bounds K0 hostSet callFilterF ⟨5, [], []⟩).2.2.1
    (by decide)

/-- If the log signature matches some declared event handler, then
`handler_for_log` resolves a handler. -/
theorem handler_for_log_ok_of_matches (K : HashModel) (h : RuntimeHost)
    (log : Log) (hm : h.matches_log_signature K log = true) :
    ∃ hd, h.handler_for_log K log = .ok hd := by
  unfold RuntimeHost.matches_log_signature at hm
  unfold RuntimeHost.handler_for_log
  cases htop : log.topics with
  | nil => simp [htop] at hm
  | cons sig rest =>
    simp only [htop] at hm ⊢
    rw [List.any_eq_true] at hm
    obtain ⟨x, hx, hpx⟩ := hm
    have hs : (h.data_source_event_handlers.find? fun handler =>
        sig == K.h256 handler.event).isSome = true := by
      rw [List.find?_isSome]
      exact ⟨x, hx, hpx⟩
    obtain ⟨hd, hhd⟩ := Option.isSome_iff_exists.mp hs
    rw [hhd]
    exact ⟨hd, rfl⟩

/-- Counterexample for C3: a host whose declared `Transfer` handler has no
counterpart in the contract ABI accepts the log via `matches_log`, yet
`process_log` fails with the event-not-found-in-ABI error. -/
theorem matches_log_not_abi_safe_counterexample :
    RuntimeHost.matches_log K0 hostNoAbiEvent logTransfer = true ∧
    (RuntimeHost.process_log K0 hostNoAbiEvent logTransfer []).1 =
      .error .eventNotInAbi := by
  exact ⟨by decide, rfl⟩

/-- Claim C3 (amended): if `matches_log` accepts a log then `process_log`
cannot fail with the no-event-handler-found error; the
event-not-found-in-ABI failure is not precluded, since `matches_log`
never consults the contract ABI. -/
theorem matches_log_precludes_no_handler_error (K : HashModel)
    (h : RuntimeHost) (log : Log) (ops : List EntityOperation)
    (hm : h.matches_log K log = true) :
    (h.process_log K log ops).1 ≠ .error .noEventHandler := by
  have hsig : h.matches_log_signature K log = true := by
    simp only [RuntimeHost.matches_log, Bool.and_eq_true] at hm
    exact hm.2
  obtain ⟨hd, hhd⟩ := handler_for_log_ok_of_matches K h log hsig
  unfold RuntimeHost.process_log
  rw [hhd]
  rcases hc : contract_event_with_signature
      h.data_source_contract_abi.contract hd.event with _ | ea
  · simp [hc]
  · rcases hp : ea.parse_log log.topics log.data with _ | params
    · simp [hc, hp]
    · simp [hc, hp]

/-- Witness for C3: the amended guarantee at the concrete host of the
counterexample. -/
theorem matches_log_precludes_no_handler_error_witness :
    (RuntimeHost.process_log K0 hostNoAbiEvent logTransfer []).1 ≠
      Except.error .noEventHandler :=
  matches_log_precludes_no_handler_error K0 hostNoAbiEvent logTransfer []
    (by decide)

/-- Claim C4, evaluated at the failing input: the argument 42 is
ABI-encoded for `set(uint256)` and the method id prefixed, yet
`process_call` does not produce the named parameter list — it decodes the
input buffer against the (empty) OUTPUT types of the function, so the
arity check against the declared inputs fails and nothing is enqueued. -/
theorem process_call_decodes_input_against_output_types :
    callSet.input =
      methodId K0 "set(uint256)" ++ encodeTokens [Token.uint 42] ∧
    (hostSet.process_call K0 callSet []).1 = .error .inputArityMismatch ∧
    (hostSet.process_call K0 callSet []).2 = [] := by
  exact ⟨rfl, rfl, rfl⟩

/-- Claim C6: whenever a processing operation fails before dispatch, no
request reaches the worker queue: an error result comes with an empty
list of sent requests, for `process_log`, `process_call` and
`process_block` alike. -/
theorem process_failures_enqueue_nothing (K : HashModel)
    (h : RuntimeHost) (log : Log) (call : EthereumCall)
    (ops1 ops2 ops3 : List EntityOperation) :
    (∀ e, (h.process_log K log ops1).1 = .error e →
      (h.process_log K log ops1).2 = []) ∧
    (∀ e, (h.process_call K call ops2).1 = .error e →
      (h.process_call K call ops2).2 = []) ∧
    (∀ e, (h.process_block ops3).1 = .error e →
      (h.process_block ops3).2 = []) := by
  refine ⟨?_, ?_, ?_⟩
  · intro e
    unfold RuntimeHost.process_log
    repeat' split
    all_goals simp_all
  · intro e
    unfold RuntimeHost.process_call
    repeat' split
    all_goals simp_all
  · intro e
    unfold RuntimeHost.process_block
    repeat' split
    all_goals simp_all

/-- Witness for C6: a failing `process_call` (short input) sends nothing
to the worker queue. -/
theorem process_failures_enqueue_nothing_witness :
    (hostSet.process_call K0 ⟨5, [], []⟩ []).2 = [] :=
  (process_failures_enqueue_nothing K0 hostSet ⟨9, [], []⟩ ⟨5, [], []⟩
    [] [] []).2.1 HostError.inputTooShort rfl

end GraphNode

